import Mathlib

/-!
# Verification of the GearBot-2 command routing and permission engine

Shallow embedding of the repository's sources:
* `src/commands/meta/nodes.rs` — permission bitflags, command groups, node
  structures, serde round-trip for `GearBotPermissions`;
* `src/core/gearbot.rs` — the event-processing loop and dispatch boundary;
* `src/core/context/bot/stats.rs` — message counter classification;
* `src/core/context/mod.rs` — `Context::is_own`;
* `src/commands/admin/check_cache.rs` — the owner-gated cache report command;
* `src/core/guild_config.rs` — the default guild configuration.

Machine integers (`u64`) are modelled as `Nat` with explicit bounds and
`% 2^64` masks where overflow matters.  Components the spec describes but
whose implementation is not part of the available sources (the permission
evaluator, the registry builder, the tokenizer/resolver) are modelled from
the spec and marked as such in their doc comments.
-/

namespace GearBot

/-! ## Permission bitflags (`src/commands/meta/nodes.rs`, `bitflags!` block) -/

namespace GearBotPermissions

def BOT_ADMIN         : Nat := 0x000001
def BASIC_GROUP       : Nat := 0x000002
def ABOUT_COMMAND     : Nat := 0x000004
def COINFLIP_COMMAND  : Nat := 0x000008
def PING_COMMAND      : Nat := 0x000010
def QUOTE_COMMAND     : Nat := 0x000020
def UID_COMMAND       : Nat := 0x000040
def GUILD_ADMIN_GROUP : Nat := 0x000080
def CONFIG_COMMAND    : Nat := 0x000100
def READ_CONFIG       : Nat := 0x000200
def WRITE_CONFIG      : Nat := 0x000400
def MODERATION_GROUP  : Nat := 0x000800
def USERINFO_COMMAND  : Nat := 0x001000

/-- The union of all bits declared in the `bitflags!` block; this is the
`all()` mask `bitflags` generates and `from_bits_truncate` masks with. -/
def allBits : Nat :=
  BOT_ADMIN ||| BASIC_GROUP ||| ABOUT_COMMAND ||| COINFLIP_COMMAND |||
  PING_COMMAND ||| QUOTE_COMMAND ||| UID_COMMAND ||| GUILD_ADMIN_GROUP |||
  CONFIG_COMMAND ||| READ_CONFIG ||| WRITE_CONFIG ||| MODERATION_GROUP |||
  USERINFO_COMMAND

/-- `bitflags`' `from_bits_truncate`: keep the defined bits, drop the rest. -/
def from_bits_truncate (v : Nat) : Nat := v &&& allBits

/-- `impl Serialize for GearBotPermissions`: `serializer.serialize_u64(self.bits())`. -/
def serialize (p : Nat) : Nat := p

/-- `impl Deserialize for GearBotPermissions`:
`Ok(Self::from_bits_truncate(u64::deserialize(deserializer)?))`.
The argument is the already-decoded `u64`; the implementation never adds an
error of its own. -/
def deserialize (v : Nat) : Except String Nat :=
  Except.ok (from_bits_truncate v)

/-- The four category bits (the masks returned by `CommandGroup::get_permission`). -/
def categoryMask : Nat :=
  BOT_ADMIN ||| BASIC_GROUP ||| GUILD_ADMIN_GROUP ||| MODERATION_GROUP

/-- The atomic action bits: every defined bit that is not a category bit. -/
def actionMask : Nat :=
  ABOUT_COMMAND ||| COINFLIP_COMMAND ||| PING_COMMAND ||| QUOTE_COMMAND |||
  UID_COMMAND ||| CONFIG_COMMAND ||| READ_CONFIG ||| WRITE_CONFIG |||
  USERINFO_COMMAND

end GearBotPermissions

/-- Bit positions set in a mask, scanned over the 64-bit width. -/
def bitPositions (mask : Nat) : List Nat :=
  (List.range 64).filter (fun i => mask.testBit i)

/-- A mask's set bit positions form one contiguous block of the bit line. -/
def contiguousBits (mask : Nat) : Bool :=
  match bitPositions mask with
  | [] => true
  | lo :: rest => (lo :: rest) == List.range' lo (rest.length + 1)

/-! ## Command groups and nodes (`src/commands/meta/nodes.rs`) -/

inductive CommandGroup : Type where
  | Basic
  | GuildAdmin
  | Moderation
  | BotAdmin
deriving DecidableEq, Repr

/-- `CommandGroup::get_permission` from `src/commands/meta/nodes.rs`. -/
def CommandGroup.get_permission : CommandGroup → Nat
  | .Basic => GearBotPermissions.BASIC_GROUP
  | .GuildAdmin => GearBotPermissions.GUILD_ADMIN_GROUP
  | .Moderation => GearBotPermissions.MODERATION_GROUP
  | .BotAdmin => GearBotPermissions.BOT_ADMIN

/-- `PermMode` from `src/commands/meta/nodes.rs`. -/
inductive PermMode : Type where
  | ALLOWED
  | MAYBE
  | DENIED
deriving DecidableEq, Repr

/-- `CommandNode` from `src/commands/meta/nodes.rs`.  The `HashMap`s are
modelled as association lists, the `Arc` sharing as plain values (in a pure
setting, the shared node is the equal value reachable under several keys),
and the handler as a presence flag (its body is irrelevant to routing). -/
inductive CommandNode : Type where
  | mk
    (name : String)
    (hasHandler : Bool)
    (sub_nodes : List (String × CommandNode))
    (node_list : List CommandNode)
    (bot_permissions : Nat)
    (command_permission : Nat)
    (group : CommandGroup)
    (aliases : List String)

def CommandNode.name : CommandNode → String
  | .mk n _ _ _ _ _ _ _ => n

def CommandNode.hasHandler : CommandNode → Bool
  | .mk _ h _ _ _ _ _ _ => h

def CommandNode.sub_nodes : CommandNode → List (String × CommandNode)
  | .mk _ _ s _ _ _ _ _ => s

def CommandNode.node_list : CommandNode → List CommandNode
  | .mk _ _ _ l _ _ _ _ => l

def CommandNode.bot_permissions : CommandNode → Nat
  | .mk _ _ _ _ b _ _ _ => b

def CommandNode.command_permission : CommandNode → Nat
  | .mk _ _ _ _ _ p _ _ => p

def CommandNode.group : CommandNode → CommandGroup
  | .mk _ _ _ _ _ _ g _ => g

def CommandNode.aliases : CommandNode → List String
  | .mk _ _ _ _ _ _ _ a => a

/-! ## Permission evaluator

Modelled from the spec: the Permission Evaluator of spec section 4.3 is not
part of the available sources — only its result type `PermMode` and
`CommandGroup::get_permission` are declared in `src/commands/meta/nodes.rs`.
The model follows the spec's words: baseline ALLOWED iff
`user_permission_bits & (node.command_permission | node.category_bits) != 0`,
guild overrides grant or revoke specific bits, an override-deny takes
precedence over a baseline allow, and an override-grant can elevate an
otherwise-denied user. -/

/-- Modelled from the spec: per-guild, per-user resolved override masks —
bits explicitly granted and bits explicitly revoked for the invoking user. -/
structure GuildOverrides : Type where
  granted : Nat
  denied : Nat

/-- The empty override set: no guild override applies. -/
def noOverrides : GuildOverrides := ⟨0, 0⟩

/-- The 64-bit mask: permission bitmasks live in a `u64` field. -/
def mask64 : Nat := 2 ^ 64 - 1

/-- The bits that open this node: its own `command_permission` united with
its category's bitmask (`CommandGroup::get_permission`). -/
def relevantBits (node : CommandNode) : Nat :=
  node.command_permission ||| node.group.get_permission

/-- Modelled from the spec: `evaluate(user_permission_bits, node,
guild_overrides)`.  Override-grants are added to the user's bits, then
override-denies are removed (deny wins); the result is ALLOWED iff the
effective bits meet `relevantBits node`, otherwise DENIED. -/
def evaluate (bits : Nat) (node : CommandNode) (ov : GuildOverrides) : PermMode :=
  let effective := (bits ||| ov.granted) &&& (mask64 ^^^ ov.denied)
  if effective &&& relevantBits node ≠ 0 then PermMode.ALLOWED else PermMode.DENIED

/-! ## The event-processing loop (`src/core/gearbot.rs`, `GearBot::run`)

The loop body is
```rust
while let Some(event) = bot_events.next().await {
    context.cache.update(&event.1).await?;
    if let Err(e) = tokio::spawn(handle_event(event, context.clone())).await {
        gearbot_error!("{}", e);
        context.stats.had_error().await
    }
}
```
`tokio::spawn(..).await` yields `Err(JoinError)` when the spawned task
panicked and `Ok(r)` with the handler's own `Result` otherwise.  The model
records, per inbound event, the cache-update result and the handler
outcome, and replays the loop on a list of such events. -/

/-- How one execution of `handle_event` can end: normal completion, an
`Err` returned by the handler chain, or a panic inside the task (such as
the `unwrap` in `src/gears/basic/echo.rs`). -/
inductive HandlerOutcome : Type where
  | ok
  | err (e : String)
  | panic (p : String)
deriving DecidableEq, Repr

/-- One inbound event as the loop sees it: the result of
`context.cache.update(&event.1)` and the outcome of the spawned
`handle_event` task. -/
structure InboundEvent : Type where
  cacheUpdate : Except String Unit
  handler : HandlerOutcome

/-- Observable state of the loop: events fully processed, messages passed to
`gearbot_error!` at the dispatch boundary, and `stats.had_error()` calls. -/
structure LoopState : Type where
  processed : Nat
  reported : List String
  error_count : Nat
deriving DecidableEq, Repr

def initialLoopState : LoopState := ⟨0, [], 0⟩

/-- Awaiting `tokio::spawn(handle_event(..))`: a panic in the task surfaces
as `Err(join_error)`; otherwise the handler's own `Result` comes back inside
`Ok` — and is not inspected by the loop body. -/
def spawnAwait : HandlerOutcome → Except String (Except String Unit)
  | .ok => Except.ok (Except.ok ())
  | .err e => Except.ok (Except.error e)
  | .panic p => Except.error p

/-- The loop body after the cache update:
`if let Err(e) = tokio::spawn(handle_event(..)).await { report; count }`. -/
def loopStep (s : LoopState) (h : HandlerOutcome) : LoopState :=
  match spawnAwait h with
  | Except.error e =>
    ⟨s.processed + 1, s.reported ++ [e], s.error_count + 1⟩
  | Except.ok _ => ⟨s.processed + 1, s.reported, s.error_count⟩

/-- The `while let` loop of `GearBot::run`: the `?` on the cache update
propagates an error out of `run`, ending the loop; handler outcomes go
through `loopStep`. -/
def runLoop : List InboundEvent → LoopState → Except String LoopState
  | [], s => Except.ok s
  | e :: rest, s =>
    match e.cacheUpdate with
    | Except.error msg => Except.error msg
    | Except.ok _ => runLoop rest (loopStep s e.handler)

/-- A handler outcome that is a failure (an `Err` return or a panic). -/
def isFailure : HandlerOutcome → Bool
  | .ok => false
  | .err _ => true
  | .panic _ => true

/-- The number of failing handler outcomes in an event list. -/
def failureCount (events : List InboundEvent) : Nat :=
  (events.filter (fun e => isFailure e.handler)).length

/-- The panic payloads of an event list, in order. -/
def panicMsgs (events : List InboundEvent) : List String :=
  events.filterMap (fun e =>
    match e.handler with
    | .panic p => some p
    | _ => none)

/-! ## Registry builder

Modelled from the spec: the Registry Builder of spec section 4.1
(`build(descriptors) -> RootNode`) is not part of the available sources —
only the `RootNode` and `CommandNode` struct declarations are, in
`src/commands/meta/nodes.rs`.  The model follows the spec's words: the flat
lookup maps the canonical name and every alias to the identical node,
construction fails on a name/alias collision within a sibling scope or on a
childless handler-less node, and the result is frozen. -/

/-- Modelled from the spec: a command descriptor (spec section 6):
`{name, aliases, category, required_user_bits, required_bot_permissions,
handler, children}`. -/
inductive Descriptor : Type where
  | mk
    (name : String)
    (aliases : List String)
    (hasHandler : Bool)
    (category : CommandGroup)
    (required_user_bits : Nat)
    (required_bot_permissions : Nat)
    (children : List Descriptor)

def Descriptor.name : Descriptor → String
  | .mk n _ _ _ _ _ _ => n

def Descriptor.aliases : Descriptor → List String
  | .mk _ a _ _ _ _ _ => a

def Descriptor.hasHandler : Descriptor → Bool
  | .mk _ _ h _ _ _ _ => h

def Descriptor.category : Descriptor → CommandGroup
  | .mk _ _ _ c _ _ _ => c

def Descriptor.children : Descriptor → List Descriptor
  | .mk _ _ _ _ _ _ ch => ch

/-- The lookup keys one descriptor contributes to its sibling scope. -/
def nodeKeys (d : Descriptor) : List String := d.name :: d.aliases

/-- All lookup keys of one sibling scope. -/
def siblingKeys (ds : List Descriptor) : List String := ds.flatMap nodeKeys

/-- The flat lookup entries for a list of sibling nodes: each node is
reachable under its canonical name and under each alias — the same node
value, multiple keys. -/
def flatEntries (nodes : List CommandNode) : List (String × CommandNode) :=
  nodes.flatMap (fun n => (n.name, n) :: n.aliases.map (fun a => (a, n)))

mutual

/-- Modelled from the spec: build one node from a descriptor, bottom-up —
children are built first, then indexed by name and by each alias in the
parent's `sub_nodes` map. -/
def toNode : Descriptor → CommandNode
  | .mk name aliases h cat ub bp children =>
    CommandNode.mk name h (flatEntries (toNodes children)) (toNodes children)
      bp ub cat aliases

def toNodes : List Descriptor → List CommandNode
  | [] => []
  | d :: ds => toNode d :: toNodes ds

end

mutual

/-- Modelled from the spec: a descriptor is well formed when a node without
a handler has at least one child and its children's sibling scope has no
duplicate name or alias, recursively. -/
def validNode : Descriptor → Bool
  | .mk _ _ h _ _ _ children =>
    (h || !children.isEmpty) && decide (siblingKeys children).Nodup &&
      validList children

def validList : List Descriptor → Bool
  | [] => true
  | d :: ds => validNode d && validList ds

end

/-- Modelled from the spec: the whole descriptor forest is well formed when
the top-level sibling scope has no duplicate key and every descriptor is
well formed. -/
def validScope (ds : List Descriptor) : Bool :=
  decide (siblingKeys ds).Nodup && validList ds

/-- `RootNode` from `src/commands/meta/nodes.rs`: three views over the same
node set (`HashMap`s modelled as association lists). -/
structure RootNode : Type where
  all_commands : List (String × CommandNode)
  command_list : List CommandNode
  by_group : List (CommandGroup × List CommandNode)

/-- The category grouping view of the node set. -/
def groupIndex (nodes : List CommandNode) : List (CommandGroup × List CommandNode) :=
  [CommandGroup.Basic, CommandGroup.GuildAdmin,
   CommandGroup.Moderation, CommandGroup.BotAdmin].map
    (fun g => (g, nodes.filter (fun n => n.group = g)))

/-- Modelled from the spec: `build(descriptors) -> RootNode` (spec 4.1) —
fails with a configuration error on a sibling-scope collision or a
childless namespace node, else produces the frozen registry. -/
def build (ds : List Descriptor) : Except String RootNode :=
  if validScope ds then
    Except.ok ⟨flatEntries (toNodes ds), toNodes ds, groupIndex (toNodes ds)⟩
  else
    Except.error "ConfigError"

/-- The sibling scopes of a registry: the top-level descriptor list itself,
and, recursively, the children of any descriptor of a reachable scope.
Every registered command of the forest, at any depth, is a member of
exactly one reachable scope. -/
inductive ScopeOf (ds : List Descriptor) : List Descriptor → Prop where
  | top : ScopeOf ds ds
  | child {scope : List Descriptor} {d : Descriptor} :
      ScopeOf ds scope → d ∈ scope → ScopeOf ds d.children

/-! ## Tokenizer/Resolver

Modelled from the spec: the Tokenizer/Resolver of spec section 4.2 is not
part of the available sources; `src/core/gearbot.rs` (lines 62-69) only
configures the external parser — registering every command as
`case_insensitive()` behind the exact prefix string.  The model follows the
spec's words: strip the configured prefix by case-sensitive exact match
(absent prefix means not a command), then match tokens case-insensitively
against the current scope's name/alias lookup, descending while a token
matches a child. -/

/-- The characters of a string lowered for case-insensitive comparison. -/
def lowerChars (s : String) : List Char := s.data.map Char.toLower

/-- Case-insensitive lookup of a token in a name/alias scope. -/
def lookupCI (tok : String) (scope : List (String × CommandNode)) : Option CommandNode :=
  (scope.find? (fun p => lowerChars p.1 == lowerChars tok)).map Prod.snd

/-- Case-sensitive exact prefix test on character lists. -/
def isPrefixOfChars : List Char → List Char → Bool
  | [], _ => true
  | _ :: _, [] => false
  | c :: cs, d :: ds => c == d && isPrefixOfChars cs ds

/-- Tokenizer worker: split at spaces, accumulating the current token in
reverse. -/
def tokenAux : List Char → List Char → List String
  | [], acc => if acc.isEmpty then [] else [String.mk acc.reverse]
  | c :: cs, acc =>
    if c = ' ' then
      if acc.isEmpty then tokenAux cs []
      else String.mk acc.reverse :: tokenAux cs []
    else tokenAux cs (c :: acc)

/-- Split message text into whitespace-separated tokens. -/
def tokenize (s : String) : List String := tokenAux s.data []

/-- Descend the command tree while the next token matches a child's name or
alias (case-insensitively); return the deepest matched node and the
unconsumed tokens. -/
def walk (node : CommandNode) : List String → CommandNode × List String
  | [] => (node, [])
  | t :: ts =>
    match lookupCI t node.sub_nodes with
    | some child => walk child ts
    | none => (node, t :: ts)

/-- Modelled from the spec: `resolve(raw_text, guild_prefix)` against the
root scope — `none` when the prefix does not match exactly or the first
token matches no command. -/
def resolve (raw pfx : String) (root : List (String × CommandNode)) :
    Option (CommandNode × List String) :=
  if isPrefixOfChars pfx.data raw.data then
    match tokenize (String.mk (raw.data.drop pfx.data.length)) with
    | [] => none
    | t :: ts =>
      match lookupCI t root with
      | some node => some (walk node ts)
      | none => none
  else none

/-! ## Message statistics (`src/core/context/bot/stats.rs`) -/

structure MsgAuthor : Type where
  id : Nat
  bot : Bool
deriving DecidableEq, Repr

/-- The slice of `twilight`'s `Message` that `new_message` inspects. -/
structure Message : Type where
  author : MsgAuthor
  webhook_id : Option Nat
deriving DecidableEq, Repr

/-- `MessageCounters` from `src/core/context/bot/stats.rs`, as plain counts. -/
structure MessageCounters : Type where
  user_messages : Nat
  other_bot_messages : Nat
  own_messages : Nat
  webhook_messages : Nat
deriving DecidableEq, Repr

structure BotUser : Type where
  id : Nat
deriving DecidableEq, Repr

/-- The slice of `Context` that `new_message` reads. -/
structure BotContext : Type where
  bot_user : BotUser
deriving DecidableEq, Repr

/-- `Context::is_own` from `src/core/context/mod.rs`:
`self.bot_user.id == other.author.id`. -/
def BotContext.is_own (ctx : BotContext) (msg : Message) : Bool :=
  ctx.bot_user.id == msg.author.id

/-- `BotStats::new_message` from `src/core/context/bot/stats.rs`, with the
incremented counter made explicit in the returned record. -/
def new_message (ctx : BotContext) (msg : Message) (c : MessageCounters) :
    MessageCounters :=
  if msg.author.bot then
    if ctx.is_own msg then
      { c with own_messages := c.own_messages + 1 }
    else if msg.webhook_id.isSome then
      { c with webhook_messages := c.webhook_messages + 1 }
    else
      { c with other_bot_messages := c.other_bot_messages + 1 }
  else
    { c with user_messages := c.user_messages + 1 }

/-- The claim's precedence description, written from its words, to be
compared with the source's `new_message`: not a bot → `user_messages` (even
if a webhook id is set); otherwise own → `own_messages`; otherwise webhook
id set → `webhook_messages`; otherwise `other_bot_messages`. -/
def new_message_claimed (ctx : BotContext) (msg : Message) (c : MessageCounters) :
    MessageCounters :=
  if msg.author.bot = false then
    { c with user_messages := c.user_messages + 1 }
  else if ctx.is_own msg then
    { c with own_messages := c.own_messages + 1 }
  else if msg.webhook_id.isSome then
    { c with webhook_messages := c.webhook_messages + 1 }
  else
    { c with other_bot_messages := c.other_bot_messages + 1 }

/-- Total of the four message counters. -/
def counterSum (c : MessageCounters) : Nat :=
  c.user_messages + c.other_bot_messages + c.own_messages + c.webhook_messages

/-! ## `check_cache` (`src/commands/admin/check_cache.rs`)

The command is gated on the author id `106354106196570112`; inside the gate
it cross-checks each cached user's `mutual_servers` counter against the
guild member lists and replies with an embed of cache statistics.  The
caches are modelled as lists, the reply/log side effects as an explicit
effect trace, and the reply send as succeeding. -/

structure CachedMember : Type where
  user_id : Nat
deriving DecidableEq, Repr

structure CachedGuild : Type where
  id : Nat
  members : List CachedMember
deriving DecidableEq, Repr

structure CachedUser : Type where
  id : Nat
  mutual_servers : Nat
deriving DecidableEq, Repr

structure BotCache : Type where
  guilds : List CachedGuild
  users : List CachedUser
deriving DecidableEq, Repr

/-- The `user_counts` gauges read by the embed builder. -/
structure StatsCounts : Type where
  unique : Int
  total : Int
deriving DecidableEq, Repr

structure CommandMessage : Type where
  author_id : Nat
deriving DecidableEq, Repr

/-- The slice of `CommandContext` that `check_cache` reads. -/
structure CommandCtx : Type where
  message : CommandMessage
  cache : BotCache
  user_counts : StatsCounts
deriving DecidableEq, Repr

/-- A side effect of a command: an `info!` log line or a sent reply with an
embed's fields. -/
inductive Effect : Type where
  | log (line : String)
  | reply (content : String) (fields : List (String × String))
deriving DecidableEq, Repr

/-- One step of the `counts` accumulation: clone-or-create the guild list
for the member's user id, push the guild id, and re-insert (replacing the
previous binding, as `HashMap::insert` does). -/
def addMember (counts : List (Nat × List Nat)) (gid uid : Nat) :
    List (Nat × List Nat) :=
  let list := (counts.lookup uid).getD []
  (uid, list ++ [gid]) :: counts.filter (fun p => p.1 ≠ uid)

/-- The nested guild/member loop building `counts`. -/
def buildCounts (guilds : List CachedGuild) : List (Nat × List Nat) :=
  guilds.foldl
    (fun counts g =>
      g.members.foldl (fun cs m => addMember cs g.id m.user_id) counts)
    []

/-- One mismatch line of the report, as formatted by the source. -/
def userLine (uid realLen tracked : Nat) : String :=
  "\n " ++ toString uid ++ " is in " ++ toString realLen ++
    " mutual but thinks they are in " ++ toString tracked ++ ")"

/-- Accumulator of the user loop: the report text and the two counters. -/
structure ReportAcc : Type where
  out : String
  think_no_servers : Nat
  no_servers : Nat
deriving DecidableEq, Repr

/-- The user loop of `check_cache`: per cached user, compare the tracked
`mutual_servers` count with the recomputed mutual guild list. -/
def reportFold (counts : List (Nat × List Nat)) (users : List CachedUser) :
    ReportAcc :=
  users.foldl
    (fun acc u =>
      let tracked := u.mutual_servers
      let real := (counts.lookup u.id).getD []
      let acc1 :=
        if tracked = 0 then
          { acc with think_no_servers := acc.think_no_servers + 1 }
        else acc
      let acc2 :=
        if real.isEmpty then
          { acc1 with no_servers := acc1.no_servers + 1 }
        else acc1
      if tracked ≠ real.length then
        { acc2 with out := acc2.out ++ userLine u.id real.length tracked }
      else acc2)
    ⟨"", 0, 0⟩

/-- "Members without properly cached users": members whose user id is not a
key of the global users cache. -/
def membersWithoutUsers (cache : BotCache) : Nat :=
  (cache.guilds.map
    (fun g =>
      (g.members.filter
        (fun m => !(cache.users.any (fun u => u.id == m.user_id)))).length)).sum

/-- The seven embed fields of the cache report, in source order. -/
def cacheEmbedFields (ctx : CommandCtx) (acc : ReportAcc) :
    List (String × String) :=
  [("Unique users metric", toString ctx.user_counts.unique),
   ("Unique users in cache", toString ctx.cache.users.length),
   ("Total users metric", toString ctx.user_counts.total),
   ("Total users in cache",
     toString (ctx.cache.guilds.map (fun g => g.members.length)).sum),
   ("Members without properly cached users",
     toString (membersWithoutUsers ctx.cache)),
   ("Users who think they have no mutuals", toString acc.think_no_servers),
   ("Users without mutual servers", toString acc.no_servers)]

/-- `check_cache` from `src/commands/admin/check_cache.rs`: the whole body
is inside `if ctx.message.author.id.0 == 106354106196570112`; outside the
gate the function falls through to `Ok(())` with no effect. -/
def check_cache (ctx : CommandCtx) : List Effect × Except String Unit :=
  if ctx.message.author_id = 106354106196570112 then
    let counts := buildCounts ctx.cache.guilds
    let acc := reportFold counts ctx.cache.users
    let out0 :=
      if acc.out = "" then "All user mutual counts are correct" else acc.out
    let logs :=
      if out0.length > 2000 then [Effect.log out0] else []
    let out :=
      if out0.length > 2000 then "Too long, see console" else out0
    (logs ++ [Effect.reply out (cacheEmbedFields ctx acc)], Except.ok ())
  else
    ([], Except.ok ())

/-! ## Default guild configuration (`src/core/guild_config.rs`) -/

/-- `LogStyle` from `src/core/guild_config.rs`. -/
inductive LogStyle : Type where
  | Text
  | Embed
deriving DecidableEq, Repr

/-- `MessageLogs` from `src/core/guild_config.rs`. -/
structure MessageLogs : Type where
  enabled : Bool
  ignored_users : List Nat
  ignored_channels : List Nat
  ignore_bots : Bool
deriving DecidableEq, Repr

/-- Modelled from the spec: the default language constant `DEFAULT_LANG`
lives in the translation module, which is not among the available sources;
the claim depends only on the default configuration carrying this constant,
not on its value. -/
def DEFAULT_LANG : String := "en_US"

/-- `GuildConfig` from `src/core/guild_config.rs` (the language identifier
modelled as its string form; the source's `prefix` field is named
`prefix_string` here because `prefix` is a reserved word in Lean). -/
structure GuildConfig : Type where
  prefix_string : String
  log_style : LogStyle
  message_logs : MessageLogs
  language : String
deriving DecidableEq, Repr

/-- `impl Default for GuildConfig` from `src/core/guild_config.rs`. -/
def GuildConfig.default : GuildConfig :=
  ⟨"!", LogStyle.Text, ⟨false, [], [], true⟩, DEFAULT_LANG⟩

/-! ## Concrete sample data used by the witness instances -/

/-- A sample leaf command node: `ping` in the Basic group, requiring
`PING_COMMAND` (0x10). -/
def demoNode : CommandNode :=
  CommandNode.mk "ping" true [] [] 0 16 CommandGroup.Basic ["pong"]

/-- A sample leaf descriptor with an alias. -/
def demoPing : Descriptor :=
  Descriptor.mk "ping" ["pong"] true CommandGroup.Basic 16 0 []

/-- A sample child descriptor with an alias. -/
def demoGet : Descriptor :=
  Descriptor.mk "get" ["show"] true CommandGroup.GuildAdmin 512 0 []

/-- A sample namespace descriptor with one child. -/
def demoConfig : Descriptor :=
  Descriptor.mk "config" [] false CommandGroup.GuildAdmin 256 0 [demoGet]

/-- A sample descriptor forest. -/
def demoDescriptors : List Descriptor := [demoConfig, demoPing]

/-! # Theorems -/

/-! ## C10 — the default guild configuration -/

/-- C10: `GuildConfig::default()` always returns the configuration with
prefix `"!"`, `Text` log style, message logs disabled with empty ignore
lists and `ignore_bots = true`, and the default language. -/
theorem guildConfig_default_eq :
    GuildConfig.default =
      ⟨"!", LogStyle.Text, ⟨false, [], [], true⟩, DEFAULT_LANG⟩ := rfl

/-! ## C3 — serde round-trip of the permission bitmask -/

/-- C3: serializing a `GearBotPermissions` mask containing only defined bits
and then deserializing reproduces exactly the same bits; deserializing any
64-bit value succeeds (never an error) and yields the value with the
undefined bits silently dropped. -/
theorem serde_roundtrip_and_truncation (p v : Nat)
    (hp : p &&& GearBotPermissions.allBits = p) (hv : v < 2 ^ 64) :
    GearBotPermissions.deserialize (GearBotPermissions.serialize p) =
      Except.ok p ∧
    GearBotPermissions.deserialize v =
      Except.ok (v &&& GearBotPermissions.allBits) := by
  constructor
  · simp [GearBotPermissions.deserialize, GearBotPermissions.serialize,
      GearBotPermissions.from_bits_truncate, hp]
  · rfl

/-- Witness for C3, at the defined mask `0x803` and the out-of-range value
`0xFF0F` (which keeps exactly its defined bits `0x1F0F`). -/
theorem serde_roundtrip_and_truncation_witness :
    GearBotPermissions.deserialize (GearBotPermissions.serialize 0x803) =
      Except.ok 0x803 ∧
    GearBotPermissions.deserialize 0xFF0F =
      Except.ok (0xFF0F &&& GearBotPermissions.allBits) :=
  serde_roundtrip_and_truncation 0x803 0xFF0F (by decide) (by decide)

/-! ## C6 — bit layout of the permission masks -/

/-- C6 counterexample: the four category bits sit at positions 0, 1, 7 and
11, interleaved with the action bits (position 2 is an action bit between
category positions 1 and 7), so the two sets do not form separate
contiguous ranges. -/
theorem category_bits_not_contiguous :
    contiguousBits GearBotPermissions.categoryMask = false ∧
    GearBotPermissions.categoryMask.testBit 1 = true ∧
    GearBotPermissions.actionMask.testBit 2 = true ∧
    GearBotPermissions.categoryMask.testBit 7 = true := by decide

/-- C6 amended: the category bits and the atomic action bits are disjoint
(no bit position belongs to both sets) and together exhaust the defined
bits, but neither set occupies a contiguous range: the two sets interleave
within the 64-bit field. -/
theorem category_action_bits_disjoint :
    GearBotPermissions.categoryMask &&& GearBotPermissions.actionMask = 0 ∧
    (GearBotPermissions.categoryMask ||| GearBotPermissions.actionMask) =
      GearBotPermissions.allBits ∧
    contiguousBits GearBotPermissions.categoryMask = false ∧
    contiguousBits GearBotPermissions.actionMask = false := by decide

/-! ## C8 — message counter classification -/

/-- C8: `BotStats::new_message` increments exactly one of the four message
counters, with the claimed precedence — a non-bot author counts as a user
message even when a webhook id is set; a bot author counts as own, webhook,
or other-bot, in that order. -/
theorem new_message_classification (ctx : BotContext) (msg : Message)
    (c : MessageCounters) :
    new_message ctx msg c = new_message_claimed ctx msg c ∧
    counterSum (new_message ctx msg c) = counterSum c + 1 := by
  unfold new_message new_message_claimed
  cases hb : msg.author.bot with
  | false => simp [counterSum]; omega
  | true =>
    cases ho : ctx.is_own msg with
    | true => simp [ho, counterSum]; omega
    | false =>
      cases hw : msg.webhook_id.isSome <;> simp [ho, hw, counterSum] <;> omega

/-! ## C9 — the owner gate of `check_cache` -/

/-- C9: for any invocation whose author id is not `106354106196570112`,
`check_cache` produces no effect (no log, no reply) and returns `Ok(())`;
the cache report reply is produced exactly when the author id equals that
constant. -/
theorem check_cache_guard (ctx : CommandCtx) :
    (ctx.message.author_id ≠ 106354106196570112 →
      check_cache ctx = ([], Except.ok ())) ∧
    (ctx.message.author_id = 106354106196570112 →
      (check_cache ctx).1 ≠ []) := by
  constructor
  · intro h
    simp [check_cache, h]
  · intro h
    simp [check_cache, h]

/-- Witness for C9: a non-owner author id (`1`) gets the empty effect trace
and `Ok(())`. -/
theorem check_cache_guard_witness :
    check_cache ⟨⟨1⟩, ⟨[], []⟩, ⟨0, 0⟩⟩ = ([], Except.ok ()) :=
  (check_cache_guard ⟨⟨1⟩, ⟨[], []⟩, ⟨0, 0⟩⟩).1 (by decide)

/-! ## C4 — the dispatch boundary of the event loop -/

/-- C4 counterexample: an `Err` returned by `handle_event` is a failure
raised during handler execution, yet the loop body — which only matches the
`JoinError` of `tokio::spawn(..).await` — reports nothing for it: after the
event, the reported list is empty and the error counter is 0. -/
theorem handler_error_not_reported :
    failureCount [⟨Except.ok (), HandlerOutcome.err "database error"⟩] = 1 ∧
    runLoop [⟨Except.ok (), HandlerOutcome.err "database error"⟩]
        initialLoopState =
      Except.ok ⟨1, [], 0⟩ := by
  exact ⟨rfl, rfl⟩

/-- The event loop on any initial state: when every cache update succeeds,
all events are processed and exactly the panics are reported. -/
theorem runLoop_ok (events : List InboundEvent) (s : LoopState)
    (h : ∀ e ∈ events, e.cacheUpdate = Except.ok ()) :
    runLoop events s =
      Except.ok ⟨s.processed + events.length,
                 s.reported ++ panicMsgs events,
                 s.error_count + (panicMsgs events).length⟩ := by
  induction events generalizing s with
  | nil => simp [runLoop, panicMsgs]
  | cons e rest ih =>
    have hc : e.cacheUpdate = Except.ok () := h e (List.mem_cons_self e rest)
    have hrest : ∀ x ∈ rest, x.cacheUpdate = Except.ok () :=
      fun x hx => h x (List.mem_cons_of_mem e hx)
    rw [runLoop, hc]
    rw [ih (loopStep s e.handler) hrest]
    cases hh : e.handler <;>
      simp [loopStep, spawnAwait, panicMsgs, hh, List.filterMap_cons] <;>
      omega

/-- C4 amended: a panic during handler execution (such as the `unwrap` in
the echo handler) is caught at the dispatch boundary as the join error of
the spawned task, reported, and counted; an `Err` returned by the handler
is silently discarded instead of being reported; neither ever terminates
the event loop — every event is processed, and the loop reaches the next
one. -/
theorem dispatch_boundary_contains_panics (events : List InboundEvent)
    (h : ∀ e ∈ events, e.cacheUpdate = Except.ok ()) :
    runLoop events initialLoopState =
      Except.ok ⟨events.length, panicMsgs events, (panicMsgs events).length⟩ := by
  have := runLoop_ok events initialLoopState h
  simpa [initialLoopState] using this

/-- Witness for C4's amended claim: a panicking event (the echo `unwrap`),
a failing event, and a normal one — the loop processes all three and
reports exactly the panic. -/
theorem dispatch_boundary_contains_panics_witness :
    runLoop
      [⟨Except.ok (), HandlerOutcome.panic "unwrap on Err"⟩,
       ⟨Except.ok (), HandlerOutcome.err "database error"⟩,
       ⟨Except.ok (), HandlerOutcome.ok⟩]
      initialLoopState =
      Except.ok ⟨3, ["unwrap on Err"], 1⟩ := by
  have := dispatch_boundary_contains_panics
    [⟨Except.ok (), HandlerOutcome.panic "unwrap on Err"⟩,
     ⟨Except.ok (), HandlerOutcome.err "database error"⟩,
     ⟨Except.ok (), HandlerOutcome.ok⟩]
    (by intro e he; fin_cases he <;> rfl)
  simpa [panicMsgs] using this

/-! ## C1, C2 — the permission evaluator -/

/-- `evaluate` with the lets flattened. -/
theorem evaluate_eq (bits : Nat) (node : CommandNode) (ov : GuildOverrides) :
    evaluate bits node ov =
      if (bits ||| ov.granted) &&& (mask64 ^^^ ov.denied) &&& relevantBits node ≠ 0
      then PermMode.ALLOWED else PermMode.DENIED := rfl

/-- A mask meets any union that contains it: `x &&& (y ||| x) = x`. -/
theorem land_lor_self (x y : Nat) : x &&& (y ||| x) = x := by
  apply Nat.eq_of_testBit_eq
  intro i
  rw [Nat.testBit_land, Nat.testBit_lor]
  cases hx : x.testBit i <;> simp [hx]

/-- Each category bitmask is a single set bit, hence positive. -/
theorem get_permission_pos (g : CommandGroup) : 0 < g.get_permission := by
  cases g <;> decide

/-- Each category bitmask fits in 64 bits. -/
theorem get_permission_lt (g : CommandGroup) : g.get_permission < 2 ^ 64 := by
  cases g <;> decide

/-- With no override, the effective bits are the user's own bits. -/
theorem effective_no_override (bits : Nat) (hb : bits < 2 ^ 64) :
    (bits ||| noOverrides.granted) &&& (mask64 ^^^ noOverrides.denied) = bits := by
  show (bits ||| 0) &&& (mask64 ^^^ 0) = bits
  rw [Nat.or_zero, Nat.xor_zero, mask64, Nat.and_pow_two_sub_one_eq_mod,
    Nat.mod_eq_of_lt hb]

/-- C1: with no guild override, `evaluate` is ALLOWED exactly when the
user's bits meet `command_permission | category_bits`, DENIED exactly when
that intersection is zero; in particular, holding only the category bit —
without the node's specific action bit — already gives ALLOWED. -/
theorem evaluate_baseline (bits : Nat) (node : CommandNode)
    (hb : bits < 2 ^ 64) :
    (evaluate bits node noOverrides = PermMode.ALLOWED ↔
      bits &&& (node.command_permission ||| node.group.get_permission) ≠ 0) ∧
    (evaluate bits node noOverrides = PermMode.DENIED ↔
      bits &&& (node.command_permission ||| node.group.get_permission) = 0) ∧
    evaluate node.group.get_permission node noOverrides = PermMode.ALLOWED := by
  have hrel : relevantBits node =
      node.command_permission ||| node.group.get_permission := rfl
  refine ⟨?_, ?_, ?_⟩
  · rw [evaluate_eq, effective_no_override bits hb, hrel]
    by_cases hz :
        bits &&& (node.command_permission ||| node.group.get_permission) = 0 <;>
      simp [hz]
  · rw [evaluate_eq, effective_no_override bits hb, hrel]
    by_cases hz :
        bits &&& (node.command_permission ||| node.group.get_permission) = 0 <;>
      simp [hz]
  · rw [evaluate_eq,
      effective_no_override node.group.get_permission (get_permission_lt node.group),
      hrel, land_lor_self]
    have hpos := get_permission_pos node.group
    simp [Nat.pos_iff_ne_zero.mp hpos]

/-- Witness for C1: a user holding only `BASIC_GROUP` (bit 0x2) is ALLOWED
on a Basic-group node requiring `PING_COMMAND` (0x10). -/
theorem evaluate_baseline_witness :
    evaluate 2 demoNode noOverrides = PermMode.ALLOWED :=
  (evaluate_baseline 2 demoNode (by decide)).1.mpr (by decide)

/-- Removing a sub-64-bit mask really clears it:
`(x &&& (mask64 ^^^ d)) &&& d` has no bit below 64, and none above if
`x < 2^64`. -/
theorem land_complement_self (x d : Nat) (hx : x < 2 ^ 64) :
    x &&& (mask64 ^^^ d) &&& d = 0 := by
  apply Nat.eq_of_testBit_eq
  intro i
  rw [Nat.testBit_land, Nat.testBit_land, Nat.testBit_xor, Nat.zero_testBit,
    mask64, Nat.testBit_two_pow_sub_one]
  by_cases hi : i < 64
  · cases hd : d.testBit i <;> simp [hd, hi]
  · have hxi : x.testBit i = false := by
      apply Nat.testBit_lt_two_pow
      calc x < 2 ^ 64 := hx
        _ ≤ 2 ^ i := Nat.pow_le_pow_right (by omega) (by omega)
    simp [hxi]

/-- C2: an explicit override-deny of the node's relevant bits forces DENIED
for every user — even one whose baseline bits (a held category bit
included) would be ALLOWED; and an explicit override-grant of a relevant
bit elevates a baseline-DENIED user to ALLOWED. -/
theorem evaluate_override_precedence (bits g : Nat) (node : CommandNode)
    (hb : bits < 2 ^ 64) (hg : g < 2 ^ 64) :
    evaluate bits node ⟨0, relevantBits node⟩ = PermMode.DENIED ∧
    (bits &&& relevantBits node = 0 → g &&& relevantBits node ≠ 0 →
      evaluate bits node ⟨g, 0⟩ = PermMode.ALLOWED) := by
  constructor
  · rw [evaluate_eq]
    have h0 : bits &&& (mask64 ^^^ relevantBits node) &&& relevantBits node = 0 :=
      land_complement_self bits (relevantBits node) hb
    simp [h0]
  · intro hbase hgrant
    rw [evaluate_eq]
    have hor : bits ||| g < 2 ^ 64 := Nat.or_lt_two_pow hb hg
    have heff : (bits ||| g) &&& (mask64 ^^^ 0) = bits ||| g := by
      rw [Nat.xor_zero, mask64, Nat.and_pow_two_sub_one_eq_mod,
        Nat.mod_eq_of_lt hor]
    show (if (bits ||| g) &&& (mask64 ^^^ 0) &&& relevantBits node ≠ 0
      then PermMode.ALLOWED else PermMode.DENIED) = PermMode.ALLOWED
    rw [heff]
    have hne : (bits ||| g) &&& relevantBits node ≠ 0 := by
      intro h0
      apply hgrant
      apply Nat.eq_of_testBit_eq
      intro i
      have hi : ((bits ||| g) &&& relevantBits node).testBit i = false := by
        rw [h0, Nat.zero_testBit]
      rw [Nat.testBit_land, Nat.testBit_lor] at hi
      rw [Nat.testBit_land, Nat.zero_testBit]
      cases hgi : g.testBit i <;>
        cases hri : (relevantBits node).testBit i <;>
        simp [hgi, hri] at hi ⊢
    simp [hne]

/-- Witness for C2: on the `ping` node, a user holding only the category
bit 0x2 is denied under a deny-override of the relevant bits, and a user
with no bits is allowed under a grant-override of `PING_COMMAND` (0x10). -/
theorem evaluate_override_precedence_witness :
    evaluate 2 demoNode ⟨0, relevantBits demoNode⟩ = PermMode.DENIED ∧
    evaluate 0 demoNode ⟨16, 0⟩ = PermMode.ALLOWED :=
  ⟨(evaluate_override_precedence 2 16 demoNode (by decide) (by decide)).1,
   (evaluate_override_precedence 0 16 demoNode (by decide) (by decide)).2
     (by decide) (by decide)⟩

/-! ## C7 — case-insensitive command matching, case-sensitive prefix -/

/-- C7: two messages whose first tokens differ only in letter case resolve
to the same result — the same command node — while a message whose text
does not carry the exact configured prefix resolves to nothing. -/
theorem resolve_case_insensitive (raw1 raw2 pfx : String)
    (root : List (String × CommandNode)) (t1 t2 : String) (ts : List String)
    (h1 : isPrefixOfChars pfx.data raw1.data = true)
    (h2 : isPrefixOfChars pfx.data raw2.data = true)
    (htok1 : tokenize (String.mk (raw1.data.drop pfx.data.length)) = t1 :: ts)
    (htok2 : tokenize (String.mk (raw2.data.drop pfx.data.length)) = t2 :: ts)
    (hcase : lowerChars t1 = lowerChars t2) :
    resolve raw1 pfx root = resolve raw2 pfx root ∧
    ∀ raw : String, isPrefixOfChars pfx.data raw.data = false →
      resolve raw pfx root = none := by
  constructor
  · have hl : lookupCI t1 root = lookupCI t2 root := by
      simp [lookupCI, hcase]
    simp only [resolve, h1, h2, if_true, htok1, htok2, hl]
  · intro raw hraw
    simp [resolve, hraw]

/-- Witness for C7: `"?PING x"` and `"?pInG x"` resolve identically against
a scope registering `ping`. -/
theorem resolve_case_insensitive_witness :
    resolve "?PING x" "?" [("ping", demoNode)] =
      resolve "?pInG x" "?" [("ping", demoNode)] :=
  (resolve_case_insensitive "?PING x" "?pInG x" "?" [("ping", demoNode)]
    "PING" "pInG" ["x"] (by decide) (by decide) (by decide) (by decide)
    (by decide)).1

/-! ## C5 — canonical name and every alias resolve to the same node -/

/-- In an association list with distinct keys, lookup returns exactly the
stored binding. -/
theorem lookup_eq_of_mem_of_nodup (l : List (String × CommandNode))
    (k : String) (n : CommandNode) (hnd : (l.map Prod.fst).Nodup)
    (hmem : (k, n) ∈ l) : l.lookup k = some n := by
  induction l with
  | nil => cases hmem
  | cons p rest ih =>
    obtain ⟨k', v'⟩ := p
    rw [List.map_cons] at hnd
    have hnd' := List.nodup_cons.mp hnd
    rcases List.mem_cons.mp hmem with heq | htail
    · injection heq with hk hn
      subst hk
      subst hn
      simp [List.lookup]
    · have hk : (k == k') = false := by
        apply beq_eq_false_iff_ne.mpr
        intro hkp
        have hmem2 := List.mem_map_of_mem Prod.fst htail
        have hmem3 : k ∈ List.map Prod.fst rest := hmem2
        rw [hkp] at hmem3
        exact hnd'.1 hmem3
      simp only [List.lookup, hk]
      exact ih hnd'.2 htail

/-- The keys of the flat entry list are exactly every name and alias. -/
theorem flatEntries_map_fst (nodes : List CommandNode) :
    (flatEntries nodes).map Prod.fst =
      nodes.flatMap (fun n => n.name :: n.aliases) := by
  induction nodes with
  | nil => rfl
  | cons n rest ih =>
    have hsplit : flatEntries (n :: rest) =
        ((n.name, n) :: n.aliases.map (fun a => (a, n))) ++ flatEntries rest := by
      simp [flatEntries, List.flatMap_cons]
    rw [hsplit, List.map_append, ih, List.flatMap_cons]
    have hfst : (Prod.fst ∘ fun a : String => ((a, n) : String × CommandNode)) = id := rfl
    simp [List.map_map, hfst]

/-- Every name/alias key of a member node is bound to that node in the flat
entry list. -/
theorem mem_flatEntries (nodes : List CommandNode) (n : CommandNode)
    (k : String) (hn : n ∈ nodes) (hk : k ∈ n.name :: n.aliases) :
    (k, n) ∈ flatEntries nodes := by
  have hblock : (k, n) ∈ (n.name, n) :: n.aliases.map (fun a => (a, n)) := by
    rcases List.mem_cons.mp hk with rfl | ha
    · exact List.mem_cons_self _ _
    · exact List.mem_cons_of_mem _ (List.mem_map_of_mem _ ha)
  simp only [flatEntries, List.mem_flatMap]
  exact ⟨n, hn, hblock⟩

theorem toNodes_eq_map (ds : List Descriptor) : toNodes ds = ds.map toNode := by
  induction ds with
  | nil => simp [toNodes]
  | cons d rest ih => simp [toNodes, ih]

theorem toNode_name (d : Descriptor) : (toNode d).name = d.name := by
  cases d
  simp [toNode, CommandNode.name, Descriptor.name]

theorem toNode_aliases (d : Descriptor) : (toNode d).aliases = d.aliases := by
  cases d
  simp [toNode, CommandNode.aliases, Descriptor.aliases]

theorem toNode_sub_nodes (d : Descriptor) :
    (toNode d).sub_nodes = flatEntries (toNodes d.children) := by
  cases d
  simp [toNode, CommandNode.sub_nodes, Descriptor.children]

/-- The built nodes of a sibling scope expose exactly the scope's keys. -/
theorem keys_toNodes (ds : List Descriptor) :
    (toNodes ds).flatMap (fun n => n.name :: n.aliases) = siblingKeys ds := by
  induction ds with
  | nil => simp [toNodes, siblingKeys]
  | cons d rest ih =>
    simp only [toNodes, List.flatMap_cons, toNode_name, toNode_aliases, ih,
      siblingKeys, nodeKeys]

theorem validNode_of_mem {ds : List Descriptor} {d : Descriptor}
    (h : validList ds = true) (hd : d ∈ ds) : validNode d = true := by
  induction ds with
  | nil => cases hd
  | cons e rest ih =>
    simp only [validList, Bool.and_eq_true] at h
    rcases List.mem_cons.mp hd with rfl | hd'
    · exact h.1
    · exact ih h.2 hd'

theorem validNode_children_nodup {d : Descriptor} (h : validNode d = true) :
    (siblingKeys d.children).Nodup ∧ validList d.children = true := by
  cases d with
  | mk n a hh cat ub bp ch =>
    simp only [validNode, Bool.and_eq_true, decide_eq_true_eq,
      Descriptor.children] at h ⊢
    exact ⟨h.1.2, h.2⟩

/-- Looking up any key of a member descriptor in the flat entries of its
built sibling scope returns that descriptor's built node. -/
theorem lookup_toNodes (ds : List Descriptor) (d : Descriptor) (k : String)
    (hnd : (siblingKeys ds).Nodup) (hd : d ∈ ds) (hk : k ∈ nodeKeys d) :
    (flatEntries (toNodes ds)).lookup k = some (toNode d) := by
  apply lookup_eq_of_mem_of_nodup
  · rw [flatEntries_map_fst, keys_toNodes]
    exact hnd
  · apply mem_flatEntries
    · rw [toNodes_eq_map]
      exact List.mem_map_of_mem toNode hd
    · rw [toNode_name, toNode_aliases]
      simpa [nodeKeys] using hk

/-- Every scope reachable in a valid registry is itself valid: its keys are
distinct and each of its members is a well-formed node. -/
theorem scope_valid {ds scope : List Descriptor} (h : ScopeOf ds scope)
    (hnd : (siblingKeys ds).Nodup) (hvl : validList ds = true) :
    (siblingKeys scope).Nodup ∧ validList scope = true := by
  induction h with
  | top => exact ⟨hnd, hvl⟩
  | child _ hmem ih =>
    exact validNode_children_nodup (validNode_of_mem ih.2 hmem)

/-- C5: in a successfully built registry, every registered command node —
top-level or at any depth — is returned identically by looking up its
canonical name and by looking up each of its declared aliases: top-level
nodes in the flat `all_commands` map, and each child of any reachable node
in that parent's `sub_nodes` map. -/
theorem alias_lookup_same_node (ds : List Descriptor) (root : RootNode)
    (hbuild : build ds = Except.ok root) :
    (∀ d ∈ ds,
      root.all_commands.lookup d.name = some (toNode d) ∧
      ∀ a ∈ d.aliases, root.all_commands.lookup a = some (toNode d)) ∧
    (∀ scope, ScopeOf ds scope → ∀ p ∈ scope, ∀ c ∈ p.children,
      (toNode p).sub_nodes.lookup c.name = some (toNode c) ∧
      ∀ b ∈ c.aliases, (toNode p).sub_nodes.lookup b = some (toNode c)) := by
  have hvalid : validScope ds = true := by
    cases hv : validScope ds with
    | true => rfl
    | false => simp [build, hv] at hbuild
  obtain ⟨hnd, hvl⟩ : (siblingKeys ds).Nodup ∧ validList ds = true := by
    simpa [validScope] using hvalid
  have hall : root.all_commands = flatEntries (toNodes ds) := by
    simp only [build, hvalid, if_true, Except.ok.injEq] at hbuild
    rw [← hbuild]
  constructor
  · intro d hd
    constructor
    · rw [hall]
      exact lookup_toNodes ds d d.name hnd hd (List.mem_cons_self _ _)
    · intro a ha
      rw [hall]
      exact lookup_toNodes ds d a hnd hd (List.mem_cons_of_mem _ ha)
  · intro scope hscope p hp c hc
    obtain ⟨hnds, hvls⟩ := scope_valid hscope hnd hvl
    obtain ⟨hndc, _⟩ := validNode_children_nodup (validNode_of_mem hvls hp)
    rw [toNode_sub_nodes]
    constructor
    · exact lookup_toNodes p.children c c.name hndc hc (List.mem_cons_self _ _)
    · intro b hb
      exact lookup_toNodes p.children c b hndc hc (List.mem_cons_of_mem _ hb)

/-- Witness for C5: in the demo registry, the top-level `ping` node is
found under its canonical name and its alias `pong`, and — inside the
alias-free `config` namespace node — the child `get` is found under its
canonical name and its alias `show`. -/
theorem alias_lookup_same_node_witness :
    (flatEntries (toNodes demoDescriptors)).lookup "ping" =
      some (toNode demoPing) ∧
    (flatEntries (toNodes demoDescriptors)).lookup "pong" =
      some (toNode demoPing) ∧
    (toNode demoConfig).sub_nodes.lookup "get" = some (toNode demoGet) ∧
    (toNode demoConfig).sub_nodes.lookup "show" = some (toNode demoGet) := by
  have h := alias_lookup_same_node demoDescriptors
    ⟨flatEntries (toNodes demoDescriptors), toNodes demoDescriptors,
     groupIndex (toNodes demoDescriptors)⟩ rfl
  have hping := h.1 demoPing (List.mem_cons_of_mem _ (List.mem_cons_self _ _))
  have hget := h.2 demoDescriptors ScopeOf.top demoConfig
    (List.mem_cons_self _ _) demoGet
    (by rw [show demoConfig.children = [demoGet] from rfl]
        exact List.mem_cons_self _ _)
  refine ⟨hping.1, ?_, hget.1, ?_⟩
  · exact hping.2 "pong"
      (by rw [show demoPing.aliases = ["pong"] from rfl]
          exact List.mem_cons_self _ _)
  · exact hget.2 "show"
      (by rw [show demoGet.aliases = ["show"] from rfl]
          exact List.mem_cons_self _ _)

end GearBot
